import Mathlib

/-!
Verification of the `raider` command-line helper (sources: `src/raider/cli.py`,
`src/raider/config.py`, `src/raider/templates.py`).

The development shallowly embeds the program's data model and operations:

* JSON values (the configuration store of `config.py`) become a mutual
  inductive `Json`/`JArr`/`JObj`; Python `dict`s are insertion-ordered
  association lists, so `JObj` keeps that order, and assignment to an
  existing key replaces the value in place (`dictSet`).
* Filesystem paths become lists of name components measured from the
  filesystem root; ambient filesystem and environment state (which paths
  exist, which are regular files or directories, what `shutil.which`
  returns, `os.name`, `sys.prefix`) becomes an explicit `Env` record
  threaded through the embedded functions.
* Fallible code returns `Except String` (the `SystemExit` message) or
  `Option`.
* The `random` module's Mersenne Twister is modelled as an abstract draw
  stream: after `random.seed(N)` the stream is a pure function of `N`, and
  `_randbelow n` consumes one draw reduced modulo `n`.  The properties
  settled here (determinism given the seed, distinctness of sampled
  entries) do not depend on the distribution of the draws.
-/

/-! ## JSON values (`config.py`)

Python `dict`s preserve insertion order; a parsed JSON object never has
duplicate keys.  `JObj` is the ordered association list of a Python dict.
-/

mutual
inductive Json where
  | null : Json
  | bool (b : Bool) : Json
  | num (n : Int) : Json
  | str (s : String) : Json
  | arr (xs : JArr) : Json
  | obj (kvs : JObj) : Json
deriving Repr
inductive JArr where
  | nil : JArr
  | cons (v : Json) (rest : JArr) : JArr
deriving Repr
inductive JObj where
  | nil : JObj
  | cons (k : String) (v : Json) (rest : JObj) : JObj
deriving Repr
end

/-- Python `d.get(k)` / `d[k]` on an insertion-ordered dict: the value at
the (unique) occurrence of `k`, scanning from the front. -/
def dictGet : JObj → String → Option Json
  | .nil, _ => none
  | .cons k' v' rest, k => if k' = k then some v' else dictGet rest k

/-- Python `d[k] = v` on an insertion-ordered dict: replace the value in
place if `k` is already a key, else append the new binding at the end. -/
def dictSet : JObj → String → Json → JObj
  | .nil, k, v => .cons k v .nil
  | .cons k' v' rest, k, v =>
      if k' = k then .cons k v rest else .cons k' v' (dictSet rest k v)

/-- The keys of a dict, in order. -/
def dictKeys : JObj → List String
  | .nil => []
  | .cons k _ rest => k :: dictKeys rest

/-- A well-formed Python dict: no duplicate keys. -/
def NodupKeys (o : JObj) : Prop := (dictKeys o).Nodup

/-- Embeds `config.deep_merge`:

```python
def deep_merge(dst, src):
    out = dict(dst)
    for k, v in src.items():
        if isinstance(v, dict) and isinstance(out.get(k), dict):
            out[k] = deep_merge(out[k], v)
        else:
            out[k] = v
    return out
```

`out = dict(dst)` is a (top-level) copy, which is the identity in this pure
model; the `for` loop over `src.items()` is recursion on `src`. -/
def deep_merge : JObj → JObj → JObj
  | dst, .nil => dst
  | dst, .cons k (Json.obj vo) rest =>
      (match dictGet dst k with
       | some (Json.obj d0) => deep_merge (dictSet dst k (Json.obj (deep_merge d0 vo))) rest
       | _ => deep_merge (dictSet dst k (Json.obj vo)) rest)
  | dst, .cons k v rest => deep_merge (dictSet dst k v) rest

/-- Builds a `JObj` from a list literal, in order. -/
def jo (l : List (String × Json)) : JObj :=
  l.foldr (fun kv acc => JObj.cons kv.1 kv.2 acc) .nil

/-- Builds a `JArr` from a list literal, in order. -/
def ja (l : List Json) : JArr :=
  l.foldr .cons .nil

/-- Embeds `config.DEFAULT_CONFIG`, transcribed field for field. -/
def DEFAULT_CONFIG : JObj := jo
  [("project", .obj (jo [("name", .str "raider-proj"), ("cxx_standard", .num 20)])),
   ("presets", .obj (jo [("configure", .str "dev"), ("build", .str "dev"), ("test", .str "dev")])),
   ("paths", .obj (jo [("src_dir", .str "src"), ("tests_dir", .str "tests")])),
   ("tools", .obj (jo [("cmake", .str "cmake"), ("ctest", .str "ctest"),
                   ("clang_format", .str "clang-format"), ("clang_tidy", .str "clang-tidy")])),
   ("run", .obj (jo [("target", .null)])),
   ("format", .obj (jo [("extensions", .arr (ja [.str ".h", .str ".hpp", .str ".c",
                                                 .str ".cc", .str ".cpp", .str ".cxx"])),
                    ("exclude_dirs", .arr (ja [.str "build", .str ".git", .str ".cache"]))])),
   ("deps", .obj (jo [("manager", .str "vcpkg"), ("manifest", .str "vcpkg.json"),
                  ("vcpkg_root", .str ".tools/vcpkg")]))]

/-- Embeds `config.load_config` for the case in which the configuration
file exists and parses to the dict `user_cfg`: the result is
`deep_merge(DEFAULT_CONFIG, user_cfg)`.  (When the file is absent the
code returns `json.loads(json.dumps(DEFAULT_CONFIG))`, a deep copy, which
is the identity in this pure model.) -/
def load_config_merged (user_cfg : JObj) : JObj :=
  deep_merge DEFAULT_CONFIG user_cfg

/-! ## Paths and the filesystem

A path is its list of name components, measured from the filesystem root
(so `[]` is the root `/`).  `pathlib`'s `name`, `suffix` and `parents` are
embedded below; `p.parents` enumerates every proper ancestor of `p`, up to
and including the filesystem root.
-/

abbrev FPath := List String

/-- Embeds `pathlib.PurePath.name` (the root has name `""`). -/
def pathName (p : FPath) : String := (p.getLast?).getD ""

/-- Embeds `pathlib.PurePath.parents`: every proper ancestor, from the
root down (the order is irrelevant here; only membership is used). -/
def pathParents : FPath → List FPath
  | [] => []
  | c :: rest => [] :: (pathParents rest).map (c :: ·)

/-- Index of the last `.` in a list of characters, if any. -/
def rfindDot : List Char → Option Nat
  | [] => none
  | c :: rest =>
      match rfindDot rest with
      | some i => some (i + 1)
      | none => if c = '.' then some 0 else none

/-- Embeds `pathlib.PurePath.suffix` of a final component: the substring
from the last dot, provided that dot is neither the first nor the last
character; otherwise `""`. -/
def pySuffix (s : String) : String :=
  let cs := s.toList
  match rfindDot cs with
  | some i => if 0 < i && i < cs.length - 1 then ⟨cs.drop i⟩ else ""
  | none => ""

/-- Renders a path the way `str(path)` does for an absolute `pathlib`
path. -/
def pathStr (p : FPath) : String := "/" ++ String.intercalate "/" p

/-! A directory tree: the contents of some directory of the filesystem.
`file` is any non-directory entry. -/
mutual
inductive FSTree where
  | file : FSTree
  | dir (entries : FSEntries) : FSTree
deriving Repr
inductive FSEntries where
  | nil : FSEntries
  | cons (n : String) (t : FSTree) (rest : FSEntries) : FSEntries
deriving Repr
end

def FSTree.isDirT : FSTree → Bool
  | .file => false
  | .dir _ => true

/-! Embeds `root.rglob("*")`: every descendant of `root` (directories
included), paired with whether it is a directory, in traversal order. -/
mutual
def rglob (base : FPath) : FSTree → List (FPath × Bool)
  | .file => []
  | .dir es => rglobEntries base es
def rglobEntries (base : FPath) : FSEntries → List (FPath × Bool)
  | .nil => []
  | .cons n t rest =>
      (base ++ [n], t.isDirT) :: rglob (base ++ [n]) t ++ rglobEntries base rest
end

/-- Embeds `cli.collect_sources` over a directory tree rooted at `root`:

```python
for p in root.rglob("*"):
    if p.is_dir(): continue
    if p.suffix not in exts: continue
    if any(parent.name in ex_dirs for parent in p.parents): continue
    sources.append(p)
```

`exts` and `ex_dirs` are `cfg["format"]["extensions"]` and
`cfg["format"]["exclude_dirs"]` of the loaded configuration. -/
def collect_sources (root : FPath) (tree : FSTree) (exts ex_dirs : List String) : List FPath :=
  ((rglob root tree).filter (fun pb =>
      !pb.2
      && exts.contains (pySuffix (pathName pb.1))
      && !((pathParents pb.1).any (fun q => ex_dirs.contains (pathName q))))).map Prod.fst

/-! ## Ambient process environment

`Env` packages the ambient state the tool-resolution and run code reads:
existence / kind of filesystem entries, `shutil.which`, `os.name`,
`sys.prefix`, file modification times and the execute permission bit. -/

structure Env where
  fsExists : FPath → Bool
  isFile : FPath → Bool
  isDir : FPath → Bool
  exeWhich : String → Option FPath
  osName : String
  sysPfx : FPath
  mtime : FPath → Int
  accessX : FPath → Bool

/-- Embeds `cli.venv_bin_dir`: the first of `<prefix>/bin`,
`<prefix>/Scripts` that exists and is a directory, else `None`. -/
def venv_bin_dir (env : Env) : Option FPath :=
  let c1 := env.sysPfx ++ ["bin"]
  let c2 := env.sysPfx ++ ["Scripts"]
  if env.fsExists c1 && env.isDir c1 then some c1
  else if env.fsExists c2 && env.isDir c2 then some c2
  else none

/-- Embeds `exts = [""] if os.name != "nt" else [".exe", ".bat", ".cmd", ""]`. -/
def resolve_exts (env : Env) : List String :=
  if env.osName != "nt" then [""] else [".exe", ".bat", ".cmd", ""]

/-- Embeds `cli.resolve_tool`:

```python
if vbin:
    for ext in exts:
        cand = vbin / (name + ext)
        if cand.exists():
            return (str(cand), f"venv ({vbin})")
found = shutil.which(name)
if found: return (found, "PATH")
return (None, "missing")
```

Note the venv loop tests `cand.exists()` only — not that `cand` is a
regular file. -/
def resolve_tool (env : Env) (name : String) : Option FPath × String :=
  let vhit :=
    match venv_bin_dir env with
    | some vbin =>
        ((resolve_exts env).find? (fun ext => env.fsExists (vbin ++ [name ++ ext]))).map
          (fun ext => (vbin ++ [name ++ ext], "venv (" ++ pathStr vbin ++ ")"))
    | none => none
  match vhit with
  | some r => (some r.1, r.2)
  | none =>
      match env.exeWhich name with
      | some found => (some found, "PATH")
      | none => (none, "missing")

/-- Follows the spec's words for the venv phase of `resolveTool` (§4.2):
"...trying the bare name and, on one target platform family, a fixed list
of executable suffixes ... in that order, returning the first existing
regular file."  Identical to `resolve_tool` except that a venv candidate
is accepted only when it exists AND is a regular file.  Used to compare
the spec's description with the code. -/
def resolve_tool_specWords (env : Env) (name : String) : Option FPath × String :=
  let vhit :=
    match venv_bin_dir env with
    | some vbin =>
        ((resolve_exts env).find?
            (fun ext => env.fsExists (vbin ++ [name ++ ext]) && env.isFile (vbin ++ [name ++ ext]))).map
          (fun ext => (vbin ++ [name ++ ext], "venv (" ++ pathStr vbin ++ ")"))
    | none => none
  match vhit with
  | some r => (some r.1, r.2)
  | none =>
      match env.exeWhich name with
      | some found => (some found, "PATH")
      | none => (none, "missing")

/-- Embeds `cli.which_or_die`: `shutil.which(tool)` or `SystemExit`. -/
def which_or_die (env : Env) (tool : String) (name : String) : Except String FPath :=
  match env.exeWhich tool with
  | some p => .ok p
  | none => .error ("Tool not found: " ++ name ++ " (\x27" ++ tool ++ "\x27) is not in PATH.")

/-- Embeds `cli.tool_or_die`: `resolve_tool` or `SystemExit`. -/
def tool_or_die (env : Env) (name : String) (friendly : String) : Except String FPath :=
  match (resolve_tool env name).1 with
  | some p => .ok p
  | none => .error ("Tool not found: " ++ friendly ++ " (\x27" ++ name ++ "\x27).")

/-! ## Command layer (`cli.py`)

Each forwarded command is embedded up to the point at which it spawns the
external process: the result is either the `SystemExit` message or the
argument vector(s) the command would hand to `subprocess.run`.  The
post-invocation steps (the compile-commands symlink of `cmd_build`, the
relayed exit status) happen after the claims' subject matter and are not
modelled. -/

/-- The configuration fields the forwarded commands read from the loaded
(merged) configuration: `cfg["tools"][...]`, `cfg["presets"][...]` and
`cfg["format"][...]`. -/
structure Cfg where
  cmake : String
  ctest : String
  clangFormat : String
  clangTidy : String
  presetConfigure : String
  presetBuild : String
  presetTest : String
  fmtExts : List String
  fmtExcludeDirs : List String

/-- Embeds `cli.build_dir_for_preset`: `root / "build" / preset`. -/
def build_dir_for_preset (root : FPath) (preset : String) : FPath :=
  root ++ ["build", preset]

/-- Embeds the `cmd_configure` pipeline: `which_or_die(cfg["tools"]["cmake"],
"cmake")`, then `[cmake, "--preset", preset]` with
`preset = args.preset or cfg["presets"]["configure"]`. -/
def cmd_configure (env : Env) (cfg : Cfg) (presetArg : Option String) :
    Except String (List String) :=
  match which_or_die env cfg.cmake "cmake" with
  | .error e => .error e
  | .ok _ =>
      let preset := presetArg.getD cfg.presetConfigure
      .ok [cfg.cmake, "--preset", preset]

/-- Embeds the `cmd_build` pipeline up to the external invocation:
`which_or_die(cfg["tools"]["cmake"], "cmake")`, then
`[cmake, "--build", "--preset", preset]`. -/
def cmd_build (env : Env) (cfg : Cfg) (presetArg : Option String) :
    Except String (List String) :=
  match which_or_die env cfg.cmake "cmake" with
  | .error e => .error e
  | .ok _ =>
      let preset := presetArg.getD cfg.presetBuild
      .ok [cfg.cmake, "--build", "--preset", preset]

/-- Embeds the `cmd_test` pipeline: `which_or_die(cfg["tools"]["ctest"],
"ctest")`, then `[ctest, "--preset", preset, "--output-on-failure"]`. -/
def cmd_test (env : Env) (cfg : Cfg) (presetArg : Option String) :
    Except String (List String) :=
  match which_or_die env cfg.ctest "ctest" with
  | .error e => .error e
  | .ok _ =>
      let preset := presetArg.getD cfg.presetTest
      .ok [cfg.ctest, "--preset", preset, "--output-on-failure"]

/-- Embeds the `cmd_fmt` pipeline: `which_or_die(cfg["tools"]["clang_format"],
"clang-format")`, then one `[clang_format, "-i", f]` invocation per
collected source file (none when no files are collected). -/
def cmd_fmt (env : Env) (cfg : Cfg) (root : FPath) (tree : FSTree) :
    Except String (List (List String)) :=
  match which_or_die env cfg.clangFormat "clang-format" with
  | .error e => .error e
  | .ok _ =>
      let files := collect_sources root tree cfg.fmtExts cfg.fmtExcludeDirs
      .ok (files.map (fun f => [cfg.clangFormat, "-i", pathStr f]))

/-- Embeds the `cmd_tidy` pipeline: `which_or_die(cfg["tools"]["clang_tidy"],
"clang-tidy")`, then the `compile_commands.json` existence check, then one
`[clang_tidy, f, "-p", bdir]` invocation per collected source file. -/
def cmd_tidy (env : Env) (cfg : Cfg) (root : FPath) (tree : FSTree)
    (presetArg : Option String) : Except String (List (List String)) :=
  match which_or_die env cfg.clangTidy "clang-tidy" with
  | .error e => .error e
  | .ok _ =>
      let preset := presetArg.getD cfg.presetBuild
      let bdir := build_dir_for_preset root preset
      if env.fsExists (bdir ++ ["compile_commands.json"]) then
        let files := collect_sources root tree cfg.fmtExts cfg.fmtExcludeDirs
        .ok (files.map (fun f => [cfg.clangTidy, pathStr f, "-p", pathStr bdir]))
      else
        .error ("compile_commands.json not found in " ++ pathStr bdir ++
                ". Run: raider build --preset " ++ preset)

/-! ### `cmd_check` -/

/-- The fixed probe list of `cmd_check` (logical name, friendly name). -/
def check_list : List (String × String) :=
  [("cmake", "CMake"), ("ninja", "Ninja"), ("ctest", "CTest"),
   ("clang", "Clang (compiler)"), ("clangd", "clangd (LSP)"),
   ("clang-format", "clang-format"), ("clang-tidy", "clang-tidy")]

/-- Python truthiness of the pair returned by `resolve_tool`: `cmd_check`
runs `path = resolve_tool(exe)` followed by `if path:`, and a 2-tuple is
always truthy in Python, whatever it contains. -/
def pyTruthyPair (_p : Option FPath × String) : Bool := true

/-- Embeds the exit status of `cmd_check`:

```python
ok_all = True
for exe, desc in checks:
    path = resolve_tool(exe)
    if path: ...
    else:
        ok_all = False
        ...
if not ok_all:
    raise SystemExit(1)
```

The result is the process exit status (0 when `cmd_check` returns
normally, 1 for the `SystemExit(1)`). -/
def cmd_check_exit (env : Env) : Nat :=
  let ok_all := check_list.foldl
    (fun ok c => if pyTruthyPair (resolve_tool env c.1) then ok else false) true
  if ok_all then 0 else 1

/-! ### `cmd_run` -/

/-- Embeds the leading-`"--"` strip of `cmd_run`:

```python
prog_args = list(args.args)
if prog_args and prog_args[0] == "--":
    prog_args = prog_args[1:]
``` -/
def strip_leading_sep (xs : List String) : List String :=
  match xs with
  | "--" :: rest => rest
  | other => other

/-- The four candidate executable paths of `cmd_run`, in source order. -/
def run_candidates (bdir : FPath) (target : String) : List FPath :=
  [bdir ++ [target],
   bdir ++ [target ++ ".exe"],
   bdir ++ ["bin", target],
   bdir ++ ["bin", target ++ ".exe"]]

/-- Embeds the candidate loop of `cmd_run`: the first candidate with
`c.exists() and c.is_file()`. -/
def find_candidate (env : Env) (bdir : FPath) (target : String) : Option FPath :=
  (run_candidates bdir target).find? (fun c => env.fsExists c && env.isFile c)

/-- The suffixes skipped by the fallback scan of `cmd_run`. -/
def fallback_skip_suffixes : List String :=
  [".a", ".so", ".dylib", ".lib", ".pdb", ".obj", ".o", ".cmake"]

/-- Embeds the eligibility filter of the `cmd_run` fallback scan over
`bdir.rglob("*")`: regular files outside `CMakeFiles`, not a
library/debug/object/build-system suffix; on Windows only `.exe`, `.bat`,
`.cmd`; elsewhere only extensionless files with the execute bit. -/
def fallback_found (env : Env) (bdir : FPath) (tree : FSTree) : List FPath :=
  ((rglob bdir tree).filter (fun pb =>
      !pb.2
      && !pb.1.contains "CMakeFiles"
      && !fallback_skip_suffixes.contains ((pySuffix (pathName pb.1)).toLower)
      && (if env.osName = "nt" then
            [".exe", ".bat", ".cmd"].contains ((pySuffix (pathName pb.1)).toLower)
          else
            pySuffix (pathName pb.1) = "" && env.accessX pb.1))).map Prod.fst

/-- Embeds the executable-discovery phase of `cmd_run`: the candidate
loop, then (when no candidate matched and `bdir` exists, its contents
being `bdirTree`) the fallback: sort the eligible files by modification
time, newest first (`list.sort` is stable, as is this insertion sort), and
take the head. -/
def cmd_run_exe (env : Env) (bdir : FPath) (bdirTree : Option FSTree) (target : String) :
    Option FPath :=
  match find_candidate env bdir target with
  | some c => some c
  | none =>
      match bdirTree with
      | some tree =>
          (List.insertionSort (fun a b => env.mtime b ≤ env.mtime a)
            (fallback_found env bdir tree)).head?
      | none => none

/-- Embeds the launch of `cmd_run` (source lines 258-259): the discovered
executable together with the (stripped) program arguments handed to
`subprocess.run([str(exe), *prog_args], ...)`. -/
def cmd_run_launch (exe : FPath) (argsCaptured : List String) : List String :=
  pathStr exe :: strip_leading_sep argsCaptured

/-! ### `write_if_missing` -/

/-- An abstract file store: the contents at each path, if any entry
exists there (`path.exists()` is `isSome`). -/
abbrev FileStore := FPath → Option String

/-- Embeds `cli.write_if_missing`:

```python
if path.exists():
    return
path.write_text(content, encoding="utf-8")
``` -/
def write_if_missing (fs : FileStore) (p : FPath) (content : String) : FileStore :=
  if (fs p).isSome then fs
  else fun q => if q = p then some content else fs q

/-! ## `cmd_raid_meters` (`cli.py` lines 508-592)

The Mersenne Twister state after `random.seed(N)` is modelled as an
abstract draw stream `g : Nat → Nat` (a pure function of `N`) together
with a position; each `_randbelow n` call consumes one draw, reduced
modulo `n`.  `random.sample(roster, 5)` uses CPython's selection-set
algorithm (for `n = 24 > setsize = 21`): draw an index below `n`,
redrawing while it was already selected; the redraw loop is bounded here
by explicit fuel, where the real generator terminates with probability 1.
The wall-clock reading `ts = time.strftime("%H:%M:%S")` is an explicit
input.  Float arithmetic (`round(frac * width)`, `f"{dps/1000:>6.1f}"`)
is modelled as exact rational rounding; no claim settled here depends on
the rounded digit values. -/

/-- Embeds `random._randbelow(n)`: the draw at position `i`, below `n`. -/
def randbelow (g : Nat → Nat) (i : Nat) (n : Nat) : Nat := g i % n

/-- Embeds `random.randint(a, b)` = `a + _randbelow(b - a + 1)` (`a ≤ b`). -/
def randint (g : Nat → Nat) (i : Nat) (a b : Int) : Int :=
  a + Int.ofNat (g i % (b - a + 1).toNat)

/-- One accepted index of `random.sample`: draw below `n`, redrawing while
the index is already in `selected`.  Returns the accepted index and the
next stream position. -/
def draw_new (g : Nat → Nat) (n : Nat) (selected : List Nat) :
    Nat → Nat → Option (Nat × Nat)
  | 0, _ => none
  | fuel + 1, i =>
      let j := randbelow g i n
      if j ∈ selected then draw_new g n selected fuel (i + 1)
      else some (j, i + 1)

/-- The selection loop of `random.sample(population, k)` over a population
of size `n`: `k` accepted indices, in acceptance order. -/
def sample_go (g : Nat → Nat) (n fuel : Nat) :
    Nat → Nat → List Nat → Option (List Nat × Nat)
  | 0, i, acc => some (acc.reverse, i)
  | k + 1, i, acc =>
      match draw_new g n acc fuel i with
      | some (j, i') => sample_go g n fuel k i' (j :: acc)
      | none => none

/-- Embeds `random.sample(roster, 5)` on the 24-entry roster: the list of
5 accepted indices and the next stream position. -/
def py_sample (g : Nat → Nat) (fuel : Nat) : Option (List Nat × Nat) :=
  sample_go g 24 fuel 5 0 []

/-- The fixed roster of `cmd_raid_meters`, transcribed. -/
def roster : List (String × String) :=
  [("Atrocity", "Havoc DH"), ("Warnergold", "Havoc DH"), ("Paalas", "Havoc DH"),
   ("Selfmade", "Veng DH"), ("Threedose", "Fire Mage"), ("Imfiredup", "Fire Mage"),
   ("Sektant", "Arms War"), ("Ztey", "Balance Druid"), ("Littleholy", "Shadow Priest"),
   ("Maxshot", "BM Hunter"), ("Shuje", "Enh Shaman"), ("Mounir", "Enh Shaman"),
   ("Neeku", "Ret Pal"), ("Deepz", "Holy Pal"), ("Kleaver", "Fury War"),
   ("Aster", "Fury War"), ("Tomislav", "Fury War"), ("Sektant", "Fury War"),
   ("Lxks", "Brew Monk"), ("Arathy", "Sub Rogue"), ("Biscoitao", "Demo Lock"),
   ("Hikis", "Destro Lock"), ("Makuubara", "Frost DK"), ("Lilchking", "Blood DK")]

/-- The fixed boss list of `cmd_raid_meters`, transcribed. -/
def boss_list : List String :=
  ["Patchwerk", "The Jailer", "C\x27Thun", "Sire Denathrius",
   "N’Zoth the Corruptor", "Gul’dan", "Argus the Unmaker", "G’huun",
   "Fyrakk the Blazing", "Sylvanas Windrunner", "Council of Blood"]

/-- Embeds the dps loop of `cmd_raid_meters`: per rank `i`,
`drop = i * randint(12_000, 28_000)`, `noise = randint(-8_000, 10_000)`,
`dps = max(25_000, base - drop + noise)`; two draws per element. -/
def dps_loop (g : Nat → Nat) (base : Int) :
    List (String × String) → Nat → Nat → List (String × String × Int)
  | [], _, _ => []
  | (nm, sp) :: rest, rank, i =>
      let dropStep := randint g i 12000 28000
      let noise := randint g (i + 1) (-8000) 10000
      let dps := max 25000 (base - (rank : Int) * dropStep + noise)
      (nm, sp, dps) :: dps_loop g base rest (rank + 1) (i + 2)

/-- The sampled, dps-annotated and sorted leaderboard of
`cmd_raid_meters`, together with the stream position after the loop:
`picks = random.sample(roster, 5)`, `base = randint(180_000, 260_000)`,
the dps loop, then the stable sort `dps_list.sort(key=..., reverse=True)`
(highest dps first; Python's sort is stable, as is this insertion
sort). -/
def meters_table (g : Nat → Nat) (fuel : Nat) :
    Option (List (String × String × Int) × Nat) :=
  match py_sample g fuel with
  | none => none
  | some (idxs, i1) =>
      let picks := idxs.map (fun j => roster.getD j ("", ""))
      let base := randint g i1 180000 260000
      let dps_list := dps_loop g base picks 0 (i1 + 1)
      some (List.insertionSort (fun a b => b.2.2 ≤ a.2.2) dps_list,
            i1 + 1 + 2 * picks.length)

/-- A run of `n` copies of the character `c` (Python `c * n`). -/
def repChar (c : Char) (n : Nat) : String := String.mk (List.replicate n c)

/-- Right-pads with spaces to width `w` (Python `f"{s:<w}"`). -/
def padRightS (s : String) (w : Nat) : String :=
  s ++ repChar ' ' (w - s.length)

/-- Left-pads with spaces to width `w` (Python `f"{s:>w}"`). -/
def padLeftS (s : String) (w : Nat) : String :=
  repChar ' ' (w - s.length) ++ s

/-- Python's `round` of the exact rational `num / den` (`den > 0`):
nearest integer, ties to even. -/
def roundHalfEven (num den : Nat) : Nat :=
  let q := num / den
  let r := num % den
  if 2 * r < den then q
  else if 2 * r > den then q + 1
  else if q % 2 = 0 then q else q + 1

/-- Zero-padded two-digit rendering (Python `f"{n:02d}"`). -/
def pad2 (n : Nat) : String :=
  if n < 10 then "0" ++ Nat.repr n else Nat.repr n

/-- Models `f"{dps / 1000:>6.1f}"`: one decimal digit, right-aligned to
width 6 (decimal rounding in place of the source's float formatting). -/
def fmt_k (dps : Int) : String :=
  let tenths := roundHalfEven dps.toNat 100
  padLeftS (Nat.repr (tenths / 10) ++ "." ++ Nat.repr (tenths % 10)) 6

/-- One leaderboard bar line of `cmd_raid_meters`:
`f"{rank:>2}. {name:<10} ({spec:<13})  {dps / 1000:>6.1f}k  {bar}"` with
`frac = dps / top_dps if top_dps else 0.0` and
`filled = int(round(frac * width))`. -/
def meters_row_line (width : Nat) (top : Int) (rank : Nat)
    (nm sp : String) (dps : Int) : String :=
  let filled := if top = 0 then 0 else roundHalfEven (dps.toNat * width) top.toNat
  let bar := repChar '█' filled ++ repChar '░' (width - filled)
  padLeftS (Nat.repr rank) 2 ++ ". " ++ padRightS nm 10 ++ " (" ++
    padRightS sp 13 ++ ")  " ++ fmt_k dps ++ "k  " ++ bar

/-- The bar lines, ranks counting from 1 (`enumerate(dps_list, start=1)`). -/
def meters_render_rows (width : Nat) (top : Int) :
    List (String × String × Int) → Nat → List String
  | [], _ => []
  | (nm, sp, dps) :: rest, rank =>
      meters_row_line width top rank nm sp dps ::
        meters_render_rows width top rest (rank + 1)

/-- Embeds the full printed output of `cmd_raid_meters`, line by line:
the header with the wall-clock reading `ts`, the fight metadata
(`boss = random.choice(bosses)`, `duration = randint(240, 540)`), the
rule lines of width `width + 38`, the five bars, and the closing tip.
`width = max(10, int(args.width))`. -/
def cmd_raid_meters_lines (g : Nat → Nat) (fuel : Nat) (widthArg : Int)
    (ts : String) : Option (List String) :=
  match meters_table g fuel with
  | none => none
  | some (sorted, i2) =>
      let width := (max 10 widthArg).toNat
      let top := (sorted.head?).elim 0 (fun r => r.2.2)
      let boss := boss_list.getD (randbelow g i2 boss_list.length) ""
      let duration := randint g (i2 + 1) 240 540
      some
        (("=== Details! Damage Done (Top 5) ===  [" ++ ts ++ "]") ::
         ("Fight: " ++ boss ++ "  |  Duration: " ++
            Nat.repr (duration.toNat / 60) ++ ":" ++ pad2 (duration.toNat % 60)) ::
         repChar '-' (width + 38) ::
         (meters_render_rows width top sorted 1 ++
           [repChar '-' (width + 38), "Tip: blame priest for not giving PI"]))

/-! ## Theorems: configuration store -/

theorem dictGet_dictSet : ∀ (o : JObj) (k k' : String) (v : Json),
    dictGet (dictSet o k v) k' = if k = k' then some v else dictGet o k'
  | .nil, k, k', v => by
      by_cases h : k = k' <;> simp [dictSet, dictGet, h]
  | .cons k0 v0 rest, k, k', v => by
      by_cases h : k0 = k
      · subst h
        by_cases h' : k0 = k' <;> simp [dictSet, dictGet, h']
      · have ih := dictGet_dictSet rest k k' v
        by_cases h' : k0 = k' <;>
          by_cases h'' : k = k' <;>
            simp_all [dictSet, dictGet]

theorem dictGet_eq_none_of_not_mem : ∀ (o : JObj) (k : String),
    k ∉ dictKeys o → dictGet o k = none
  | .nil, _, _ => rfl
  | .cons k0 v0 rest, k, h => by
      simp only [dictKeys, List.mem_cons, not_or] at h
      have hne : k0 ≠ k := fun e => h.1 e.symm
      simp [dictGet, hne, dictGet_eq_none_of_not_mem rest k h.2]

/-- The per-key merge rule in the spec's words (§4.1): a key absent from
the user mapping keeps the default value; two mappings recurse; otherwise
the user value wins, entirely replacing the default (arrays included). -/
def merge_rule (d : Option Json) (u : Option Json) : Option Json :=
  match d, u with
  | d, none => d
  | some (Json.obj d0), some (Json.obj u0) => some (Json.obj (deep_merge d0 u0))
  | _, some v => some v

/-- The value `deep_merge` stores for one `src` item `(k0, v0)`. -/
def merge_one (dv : Option Json) (v : Json) : Json :=
  match v, dv with
  | Json.obj vo, some (Json.obj d0) => Json.obj (deep_merge d0 vo)
  | v, _ => v

theorem merge_rule_some (d : Option Json) (v : Json) :
    merge_rule d (some v) = some (merge_one d v) := by
  rcases d with _ | j
  · cases v <;> rfl
  · cases j <;> cases v <;> rfl

theorem deep_merge_cons (dst : JObj) (k0 : String) (v0 : Json) (rest : JObj) :
    deep_merge dst (.cons k0 v0 rest) =
      deep_merge (dictSet dst k0 (merge_one (dictGet dst k0) v0)) rest := by
  cases v0 <;> simp only [deep_merge, merge_one]
  rcases hd : dictGet dst k0 with _ | j
  · simp [hd]
  · cases j <;> simp [hd]

theorem deep_merge_preserves_keys : ∀ (src dst : JObj) (k : String),
    (dictGet dst k).isSome = true → (dictGet (deep_merge dst src) k).isSome = true
  | .nil, dst, k, h => by simpa [deep_merge] using h
  | .cons k0 v0 rest, dst, k, h => by
      rw [deep_merge_cons]
      apply deep_merge_preserves_keys rest
      rw [dictGet_dictSet]
      by_cases hk : k0 = k
      · simp [hk]
      · simpa [hk] using h

theorem deep_merge_lookup : ∀ (src : JObj), NodupKeys src → ∀ (dst : JObj) (k : String),
    dictGet (deep_merge dst src) k = merge_rule (dictGet dst k) (dictGet src k)
  | .nil, _, dst, k => by
      cases hd : dictGet dst k <;> simp [deep_merge, dictGet, merge_rule, hd]
  | .cons k0 v0 rest, h, dst, k => by
      have hnd : k0 ∉ dictKeys rest ∧ NodupKeys rest := by
        simpa [NodupKeys, dictKeys, List.nodup_cons] using h
      rw [deep_merge_cons,
          deep_merge_lookup rest hnd.2 (dictSet dst k0 (merge_one (dictGet dst k0) v0)) k,
          dictGet_dictSet]
      by_cases hk : k0 = k
      · subst hk
        rw [dictGet_eq_none_of_not_mem rest k0 hnd.1]
        have h1 : dictGet (JObj.cons k0 v0 rest) k0 = some v0 := by simp [dictGet]
        rw [h1, merge_rule_some]
        simp [merge_rule]
      · simp [hk, dictGet]

/-- C4: for every (well-formed) user configuration mapping, the effective
configuration `load_config` produces contains every top-level key of the
hardcoded defaults, and every lookup obeys the recursive merge rule: a
key absent from the user mapping keeps the default value, two nested
mappings merge recursively, and otherwise the user value wins at that
position. -/
theorem load_config_defaults_present_and_overridden (user : JObj) (h : NodupKeys user) :
    (∀ k, (dictGet DEFAULT_CONFIG k).isSome = true →
        (dictGet (load_config_merged user) k).isSome = true)
  ∧ (∀ k, dictGet (load_config_merged user) k =
        merge_rule (dictGet DEFAULT_CONFIG k) (dictGet user k)) := by
  constructor
  · intro k hk
    exact deep_merge_preserves_keys user DEFAULT_CONFIG k hk
  · intro k
    exact deep_merge_lookup user h DEFAULT_CONFIG k

/-- A concrete user configuration overriding one leaf under `project`. -/
def userCfgW : JObj := jo [("project", .obj (jo [("name", .str "myproj")]))]

/-- Witness for `load_config_defaults_present_and_overridden` at a
concrete user configuration. -/
theorem load_config_defaults_present_and_overridden_witness :
    (dictGet (load_config_merged userCfgW) "tools").isSome = true
  ∧ dictGet (load_config_merged userCfgW) "project" =
      merge_rule (dictGet DEFAULT_CONFIG "project") (dictGet userCfgW "project") := by
  have h := load_config_defaults_present_and_overridden userCfgW (by
    simp [NodupKeys, userCfgW, jo, dictKeys])
  exact ⟨h.1 "tools" (by rfl), h.2 "project"⟩

/-- C8: deep-merge is idempotent on the defaults: merging the hardcoded
defaults with an empty user mapping yields exactly the defaults, and
merging the defaults with themselves yields the defaults unchanged. -/
theorem deep_merge_idempotent_on_defaults :
    deep_merge DEFAULT_CONFIG JObj.nil = DEFAULT_CONFIG ∧
    deep_merge DEFAULT_CONFIG DEFAULT_CONFIG = DEFAULT_CONFIG :=
  ⟨rfl, rfl⟩

/-! ## Theorems: `write_if_missing`, `cmd_run` argument strip, `cmd_check` -/

/-- C9: `write_if_missing` writes only when no entry exists at the
destination, leaves an existing entry untouched, and in particular a
second write with different content to the same path is a complete no-op,
so the first content stays intact. -/
theorem write_if_missing_never_overwrites (fs : FileStore) (p : FPath) (c₁ c₂ : String) :
    ((fs p).isSome = true → write_if_missing fs p c₁ = fs)
  ∧ (fs p = none → write_if_missing fs p c₁ p = some c₁)
  ∧ write_if_missing (write_if_missing fs p c₁) p c₂ = write_if_missing fs p c₁ := by
  have noop : ∀ (g : FileStore) (c : String), (g p).isSome = true → write_if_missing g p c = g :=
    fun g c h => by simp [write_if_missing, h]
  have wr : fs p = none → write_if_missing fs p c₁ p = some c₁ := fun h => by
    simp [write_if_missing, h]
  refine ⟨noop fs c₁, wr, ?_⟩
  by_cases h : (fs p).isSome = true
  · rw [noop fs c₁ h, noop fs c₂ h]
  · apply noop
    have hn : fs p = none := by
      cases hfp : fs p
      · rfl
      · exact absurd (by simp [hfp]) h
    rw [wr hn]
    rfl

/-- Witness for `write_if_missing_never_overwrites`: on an empty store,
writing `"first"` then `"second"` to the same path leaves `"first"`. -/
theorem write_if_missing_never_overwrites_witness :
    write_if_missing (write_if_missing (fun _ => none) ["proj", "CMakeLists.txt"] "first")
        ["proj", "CMakeLists.txt"] "second" ["proj", "CMakeLists.txt"] = some "first" := by
  have h := write_if_missing_never_overwrites (fun _ => none) ["proj", "CMakeLists.txt"]
    "first" "second"
  rw [h.2.2]
  exact h.2.1 rfl

/-- C10: `cmd_run` removes exactly one leading `"--"` from the captured
program arguments before launching: if the first captured argument is
`"--"` it alone is dropped and every remaining argument (later `"--"`
occurrences included) is passed through unchanged and in order; if the
first argument is not `"--"`, nothing is dropped. -/
theorem cmd_run_strips_one_leading_sep (exe : FPath) (xs rest : List String) :
    (xs = "--" :: rest → cmd_run_launch exe xs = pathStr exe :: rest)
  ∧ (xs.head? ≠ some "--" → cmd_run_launch exe xs = pathStr exe :: xs) := by
  constructor
  · rintro rfl
    rfl
  · intro h
    cases xs with
    | nil => rfl
    | cons a as =>
      have ha : a ≠ "--" := by simpa using h
      simp [cmd_run_launch, strip_leading_sep, ha]

/-- Witness for `cmd_run_strips_one_leading_sep`: a leading `"--"` is
dropped while a later `"--"` survives in place. -/
theorem cmd_run_strips_one_leading_sep_witness :
    cmd_run_launch ["proj", "build", "dev", "app"] ["--", "-v", "--", "x"] =
      pathStr ["proj", "build", "dev", "app"] :: ["-v", "--", "x"] :=
  (cmd_run_strips_one_leading_sep ["proj", "build", "dev", "app"]
    ["--", "-v", "--", "x"] ["-v", "--", "x"]).1 rfl

/-- An environment in which no probed tool exists anywhere: no venv bin
directory and an empty system search path. -/
def envAllMissing : Env where
  fsExists := fun _ => false
  isFile := fun _ => false
  isDir := fun _ => false
  exeWhich := fun _ => none
  osName := "posix"
  sysPfx := ["usr"]
  mtime := fun _ => 0
  accessX := fun _ => false

/-- C1 (bug evidence): `cmd_check` exits with status 0 in EVERY
environment — also when a probed tool is missing — because it tests the
pair returned by `resolve_tool` for truthiness instead of its path
component, and a 2-tuple is always truthy; in `envAllMissing` every probe
resolves to `(None, "missing")`, yet the exit status is still 0, where
both the spec and the dead `ok_all = False` branch call for a non-zero
exit. -/
theorem cmd_check_exit_always_zero :
    (∀ env, cmd_check_exit env = 0)
  ∧ resolve_tool envAllMissing "ninja" = (none, "missing")
  ∧ cmd_check_exit envAllMissing = 0 :=
  ⟨fun _ => rfl, rfl, rfl⟩

/-! ## Theorems: executable discovery (`cmd_run` candidates) -/

/-- C7: `cmd_run`'s executable discovery tries `<target>`,
`<target>.exe`, `bin/<target>`, `bin/<target>.exe` under the build
directory in that order and selects the first that exists and is a
regular file (the mtime fallback runs only when all four fail); in
particular, whenever both `<target>` and `bin/<target>` qualify, the bare
candidate is chosen. -/
theorem cmd_run_candidate_precedence (env : Env) (bdir : FPath)
    (bdirTree : Option FSTree) (target : String) :
    ((env.fsExists (bdir ++ [target]) && env.isFile (bdir ++ [target])) = true →
        cmd_run_exe env bdir bdirTree target = some (bdir ++ [target]))
  ∧ ((env.fsExists (bdir ++ [target]) && env.isFile (bdir ++ [target])) = false →
     (env.fsExists (bdir ++ [target ++ ".exe"]) && env.isFile (bdir ++ [target ++ ".exe"])) = true →
        cmd_run_exe env bdir bdirTree target = some (bdir ++ [target ++ ".exe"]))
  ∧ ((env.fsExists (bdir ++ [target]) && env.isFile (bdir ++ [target])) = false →
     (env.fsExists (bdir ++ [target ++ ".exe"]) && env.isFile (bdir ++ [target ++ ".exe"])) = false →
     (env.fsExists (bdir ++ ["bin", target]) && env.isFile (bdir ++ ["bin", target])) = true →
        cmd_run_exe env bdir bdirTree target = some (bdir ++ ["bin", target]))
  ∧ ((env.fsExists (bdir ++ [target]) && env.isFile (bdir ++ [target])) = false →
     (env.fsExists (bdir ++ [target ++ ".exe"]) && env.isFile (bdir ++ [target ++ ".exe"])) = false →
     (env.fsExists (bdir ++ ["bin", target]) && env.isFile (bdir ++ ["bin", target])) = false →
     (env.fsExists (bdir ++ ["bin", target ++ ".exe"]) && env.isFile (bdir ++ ["bin", target ++ ".exe"])) = true →
        cmd_run_exe env bdir bdirTree target = some (bdir ++ ["bin", target ++ ".exe"]))
  ∧ ((env.fsExists (bdir ++ [target]) && env.isFile (bdir ++ [target])) = true →
     (env.fsExists (bdir ++ ["bin", target]) && env.isFile (bdir ++ ["bin", target])) = true →
        cmd_run_exe env bdir bdirTree target = some (bdir ++ [target])) := by
  refine ⟨?_, ?_, ?_, ?_, ?_⟩
  · intro h1
    simp [cmd_run_exe, find_candidate, run_candidates, List.find?, h1]
  · intro h1 h2
    simp [cmd_run_exe, find_candidate, run_candidates, List.find?, h1, h2]
  · intro h1 h2 h3
    simp [cmd_run_exe, find_candidate, run_candidates, List.find?, h1, h2, h3]
  · intro h1 h2 h3 h4
    simp [cmd_run_exe, find_candidate, run_candidates, List.find?, h1, h2, h3, h4]
  · intro h1 _
    simp [cmd_run_exe, find_candidate, run_candidates, List.find?, h1]

/-- A build directory in which both `app` and `bin/app` are regular
files. -/
def envBothCandidates : Env where
  fsExists := fun p => p == ["proj", "build", "dev", "app"] ||
                       p == ["proj", "build", "dev", "bin", "app"]
  isFile := fun p => p == ["proj", "build", "dev", "app"] ||
                     p == ["proj", "build", "dev", "bin", "app"]
  isDir := fun _ => false
  exeWhich := fun _ => none
  osName := "posix"
  sysPfx := ["venv"]
  mtime := fun _ => 0
  accessX := fun _ => false

/-- Witness for `cmd_run_candidate_precedence`: with both `app` and
`bin/app` present as regular files, the bare candidate is chosen. -/
theorem cmd_run_candidate_precedence_witness :
    cmd_run_exe envBothCandidates ["proj", "build", "dev"] none "app" =
      some ["proj", "build", "dev", "app"] :=
  (cmd_run_candidate_precedence envBothCandidates ["proj", "build", "dev"] none
    "app").2.2.2.2 rfl rfl

/-! ## Theorems: tool resolution -/

/-- No venv candidate is picked up: there is no venv bin directory, or no
`name + ext` candidate exists in it. -/
def venv_miss (env : Env) (name : String) : Prop :=
  match venv_bin_dir env with
  | none => True
  | some vbin => ∀ ext ∈ resolve_exts env, env.fsExists (vbin ++ [name ++ ext]) = false

/-- C5 (amended): `resolve_tool` first checks the venv bin directory —
on the Windows platform family trying `.exe`, `.bat`, `.cmd` and the bare
name in that order — and returns the first candidate that EXISTS there
(whether or not it is a regular file); when no venv candidate exists it
searches the system search path for the bare name; when that also fails
it returns the explicit `(none, "missing")` result — it never raises. -/
theorem resolve_tool_venv_first (env : Env) (name : String) :
    (∀ vbin, venv_bin_dir env = some vbin → env.osName = "nt" →
       ((env.fsExists (vbin ++ [name ++ ".exe"]) = true →
           resolve_tool env name =
             (some (vbin ++ [name ++ ".exe"]), "venv (" ++ pathStr vbin ++ ")"))
      ∧ (env.fsExists (vbin ++ [name ++ ".exe"]) = false →
         env.fsExists (vbin ++ [name ++ ".bat"]) = true →
           resolve_tool env name =
             (some (vbin ++ [name ++ ".bat"]), "venv (" ++ pathStr vbin ++ ")"))
      ∧ (env.fsExists (vbin ++ [name ++ ".exe"]) = false →
         env.fsExists (vbin ++ [name ++ ".bat"]) = false →
         env.fsExists (vbin ++ [name ++ ".cmd"]) = true →
           resolve_tool env name =
             (some (vbin ++ [name ++ ".cmd"]), "venv (" ++ pathStr vbin ++ ")"))
      ∧ (env.fsExists (vbin ++ [name ++ ".exe"]) = false →
         env.fsExists (vbin ++ [name ++ ".bat"]) = false →
         env.fsExists (vbin ++ [name ++ ".cmd"]) = false →
         env.fsExists (vbin ++ [name]) = true →
           resolve_tool env name =
             (some (vbin ++ [name]), "venv (" ++ pathStr vbin ++ ")"))))
  ∧ (∀ vbin, venv_bin_dir env = some vbin → env.osName ≠ "nt" →
       env.fsExists (vbin ++ [name]) = true →
         resolve_tool env name = (some (vbin ++ [name]), "venv (" ++ pathStr vbin ++ ")"))
  ∧ (venv_miss env name → ∀ f, env.exeWhich name = some f →
       resolve_tool env name = (some f, "PATH"))
  ∧ (venv_miss env name → env.exeWhich name = none →
       resolve_tool env name = (none, "missing")) := by
  have hbare : name ++ "" = name := by simp
  refine ⟨?_, ?_, ?_, ?_⟩
  · intro vbin hv hnt
    refine ⟨fun h1 => ?_, fun h1 h2 => ?_, fun h1 h2 h3 => ?_, fun h1 h2 h3 h4 => ?_⟩
    · simp [resolve_tool, resolve_exts, hv, hnt, List.find?, hbare, h1]
    · simp [resolve_tool, resolve_exts, hv, hnt, List.find?, hbare, h1, h2]
    · simp [resolve_tool, resolve_exts, hv, hnt, List.find?, hbare, h1, h2, h3]
    · simp [resolve_tool, resolve_exts, hv, hnt, List.find?, hbare, h1, h2, h3, h4]
  · intro vbin hv hnt h1
    simp only [resolve_tool, resolve_exts, hv]
    rw [if_pos (by simpa using hnt)]
    simp [List.find?, hbare, h1]
  · intro hm f hf
    simp only [resolve_tool]
    rcases hv : venv_bin_dir env with _ | vbin
    · simp [hf]
    · simp only [venv_miss, hv] at hm
      have : (resolve_exts env).find?
          (fun ext => env.fsExists (vbin ++ [name ++ ext])) = none :=
        List.find?_eq_none.mpr (fun e he => by simp [hm e he])
      simp [this, hf]
  · intro hm hf
    simp only [resolve_tool]
    rcases hv : venv_bin_dir env with _ | vbin
    · simp [hf]
    · simp only [venv_miss, hv] at hm
      have : (resolve_exts env).find?
          (fun ext => env.fsExists (vbin ++ [name ++ ext])) = none :=
        List.find?_eq_none.mpr (fun e he => by simp [hm e he])
      simp [this, hf]

/-- An environment on the Windows platform family whose venv bin
directory holds `ninja.bat` (and nothing else for `ninja`). -/
def envWinBat : Env where
  fsExists := fun p => p == ["venv", "Scripts"] || p == ["venv", "Scripts", "ninja.bat"]
  isFile := fun p => p == ["venv", "Scripts", "ninja.bat"]
  isDir := fun p => p == ["venv", "Scripts"]
  exeWhich := fun _ => none
  osName := "nt"
  sysPfx := ["venv"]
  mtime := fun _ => 0
  accessX := fun _ => false

/-- Witness for `resolve_tool_venv_first`: on `envWinBat` the `.bat`
candidate is returned from the venv `Scripts` directory. -/
theorem resolve_tool_venv_first_witness :
    resolve_tool envWinBat "ninja" =
      (some ["venv", "Scripts", "ninja.bat"], "venv (" ++ pathStr ["venv", "Scripts"] ++ ")") :=
  ((resolve_tool_venv_first envWinBat "ninja").1 ["venv", "Scripts"] rfl rfl).2.1 rfl rfl

/-- An environment whose venv bin directory holds an entry named `cmake`
that exists but is NOT a regular file (e.g. a directory), while a regular
`cmake` is on the system search path. -/
def envVenvDirEntry : Env where
  fsExists := fun p => p == ["venv", "bin"] || p == ["venv", "bin", "cmake"]
  isFile := fun _ => false
  isDir := fun p => p == ["venv", "bin"] || p == ["venv", "bin", "cmake"]
  exeWhich := fun t => if t = "cmake" then some ["usr", "bin", "cmake"] else none
  osName := "posix"
  sysPfx := ["venv"]
  mtime := fun _ => 0
  accessX := fun _ => false

/-- C5 (counterexample): the claim says the venv phase returns "the first
existing regular file"; but `resolve_tool` tests existence only, so on
`envVenvDirEntry` it returns the venv entry that is not a regular file,
whereas the resolver that follows the spec's words skips it and falls
through to the system search path. -/
theorem resolve_tool_returns_non_regular_file :
    resolve_tool envVenvDirEntry "cmake" =
      (some ["venv", "bin", "cmake"], "venv (" ++ pathStr ["venv", "bin"] ++ ")")
  ∧ envVenvDirEntry.isFile ["venv", "bin", "cmake"] = false
  ∧ resolve_tool_specWords envVenvDirEntry "cmake" = (some ["usr", "bin", "cmake"], "PATH")
  ∧ resolve_tool envVenvDirEntry "cmake" ≠ resolve_tool_specWords envVenvDirEntry "cmake" := by
  refine ⟨rfl, rfl, rfl, by decide⟩

/-! ## Theorems: forwarded commands and tool location -/

/-- C2 (amended): the forwarded subcommands `configure`, `build`, `test`,
`fmt` locate their external tool with `which_or_die`, i.e. via the
system search path ONLY (their behaviour is independent of the venv bin
directory), and each hard-fails exactly when `shutil.which` does not find
the configured tool name; `tidy` likewise hard-fails with the
`which_or_die` message when its tool is missing from the search path; and
for every tool, `which_or_die` errs exactly when the search path misses
it.  (`tool_or_die`, the venv-first path, is used only by the `run`
subcommand's optional build step.) -/
theorem forwarded_commands_resolve_via_PATH_only (env env' : Env) (cfg : Cfg)
    (presetArg : Option String) (root : FPath) (tree : FSTree) :
    (env.exeWhich = env'.exeWhich →
        cmd_configure env cfg presetArg = cmd_configure env' cfg presetArg
      ∧ cmd_build env cfg presetArg = cmd_build env' cfg presetArg
      ∧ cmd_test env cfg presetArg = cmd_test env' cfg presetArg
      ∧ cmd_fmt env cfg root tree = cmd_fmt env' cfg root tree)
  ∧ ((∃ e, cmd_configure env cfg presetArg = .error e) ↔ env.exeWhich cfg.cmake = none)
  ∧ ((∃ e, cmd_build env cfg presetArg = .error e) ↔ env.exeWhich cfg.cmake = none)
  ∧ ((∃ e, cmd_test env cfg presetArg = .error e) ↔ env.exeWhich cfg.ctest = none)
  ∧ ((∃ e, cmd_fmt env cfg root tree = .error e) ↔ env.exeWhich cfg.clangFormat = none)
  ∧ (env.exeWhich cfg.clangTidy = none →
       cmd_tidy env cfg root tree presetArg =
         .error ("Tool not found: clang-tidy (\x27" ++ cfg.clangTidy ++ "\x27) is not in PATH."))
  ∧ (∀ tool nm, (∃ e, which_or_die env tool nm = .error e) ↔ env.exeWhich tool = none) := by
  have wdie : ∀ (e0 : Env) (tool nm : String),
      (∃ e, which_or_die e0 tool nm = .error e) ↔ e0.exeWhich tool = none := by
    intro e0 tool nm
    constructor
    · rintro ⟨e, he⟩
      cases hw : e0.exeWhich tool with
      | none => rfl
      | some p => simp [which_or_die, hw] at he
    · intro hw
      refine ⟨"Tool not found: " ++ nm ++ " (\x27" ++ tool ++ "\x27) is not in PATH.", ?_⟩
      simp [which_or_die, hw]
  refine ⟨?_, ?_, ?_, ?_, ?_, ?_, wdie env⟩
  · intro hEq
    refine ⟨?_, ?_, ?_, ?_⟩ <;> simp [cmd_configure, cmd_build, cmd_test, cmd_fmt,
      which_or_die, hEq]
  · rw [← wdie env cfg.cmake "cmake"]
    constructor
    · rintro ⟨e, he⟩
      cases hw : which_or_die env cfg.cmake "cmake" with
      | error e' => exact ⟨e', rfl⟩
      | ok p => simp [cmd_configure, hw] at he
    · rintro ⟨e, he⟩
      exact ⟨e, by simp [cmd_configure, he]⟩
  · rw [← wdie env cfg.cmake "cmake"]
    constructor
    · rintro ⟨e, he⟩
      cases hw : which_or_die env cfg.cmake "cmake" with
      | error e' => exact ⟨e', rfl⟩
      | ok p => simp [cmd_build, hw] at he
    · rintro ⟨e, he⟩
      exact ⟨e, by simp [cmd_build, he]⟩
  · rw [← wdie env cfg.ctest "ctest"]
    constructor
    · rintro ⟨e, he⟩
      cases hw : which_or_die env cfg.ctest "ctest" with
      | error e' => exact ⟨e', rfl⟩
      | ok p => simp [cmd_test, hw] at he
    · rintro ⟨e, he⟩
      exact ⟨e, by simp [cmd_test, he]⟩
  · rw [← wdie env cfg.clangFormat "clang-format"]
    constructor
    · rintro ⟨e, he⟩
      cases hw : which_or_die env cfg.clangFormat "clang-format" with
      | error e' => exact ⟨e', rfl⟩
      | ok p => simp [cmd_fmt, hw] at he
    · rintro ⟨e, he⟩
      exact ⟨e, by simp [cmd_fmt, he]⟩
  · intro hw
    simp [cmd_tidy, which_or_die, hw]

/-- An environment in which `cmake` exists as a regular file in the venv
bin directory but is absent from the system search path. -/
def envVenvOnly : Env where
  fsExists := fun p => p == ["venv", "bin"] || p == ["venv", "bin", "cmake"]
  isFile := fun p => p == ["venv", "bin", "cmake"]
  isDir := fun p => p == ["venv", "bin"]
  exeWhich := fun _ => none
  osName := "posix"
  sysPfx := ["venv"]
  mtime := fun _ => 0
  accessX := fun _ => false

/-- A configuration carrying the hardcoded default tool names, presets
and format settings. -/
def cfgDefault : Cfg where
  cmake := "cmake"
  ctest := "ctest"
  clangFormat := "clang-format"
  clangTidy := "clang-tidy"
  presetConfigure := "dev"
  presetBuild := "dev"
  presetTest := "dev"
  fmtExts := [".h", ".hpp", ".c", ".cc", ".cpp", ".cxx"]
  fmtExcludeDirs := ["build", ".git", ".cache"]

/-- C2 (counterexample): in `envVenvOnly` the venv-first resolver finds
`cmake` (and `tool_or_die` would succeed), yet the forwarded `configure`
subcommand hard-fails, because it locates its tool with `which_or_die`
over the system search path only — contradicting the claim that the
forwarded subcommands check the venv bin directory first and that
absence becomes a hard failure only through `tool_or_die`. -/
theorem cmd_configure_ignores_venv :
    (resolve_tool envVenvOnly "cmake").1 = some ["venv", "bin", "cmake"]
  ∧ tool_or_die envVenvOnly "cmake" "cmake" = .ok ["venv", "bin", "cmake"]
  ∧ cmd_configure envVenvOnly cfgDefault none =
      .error "Tool not found: cmake (\x27cmake\x27) is not in PATH." :=
  ⟨rfl, rfl, rfl⟩

/-- Witness for `forwarded_commands_resolve_via_PATH_only`: on
`envVenvOnly` (search path empty) the `configure` subcommand errs. -/
theorem forwarded_commands_resolve_via_PATH_only_witness :
    ∃ e, cmd_configure envVenvOnly cfgDefault none = .error e :=
  (forwarded_commands_resolve_via_PATH_only envVenvOnly envVenvOnly cfgDefault none
    [] FSTree.file).2.1.mpr rfl

/-! ## Theorems: source collection -/

/-- Whether some entry of the list has name `n`. -/
def FSEntries.hasName : FSEntries → String → Bool
  | .nil, _ => false
  | .cons n' _ rest, n => n' == n || rest.hasName n

/-! The entry a relative path denotes in a tree: `look t rel` resolves the
first entry with each successive name and descends. -/
mutual
def FSTree.look : FSTree → List String → Option FSTree
  | t, [] => some t
  | .file, _ :: _ => none
  | .dir es, n :: rel => FSEntries.lookE es n rel
def FSEntries.lookE : FSEntries → String → List String → Option FSTree
  | .nil, _, _ => none
  | .cons n' t rest, n, rel =>
      if n' = n then t.look rel else FSEntries.lookE rest n rel
end

/-! A well-formed directory tree: entry names are unique at every level,
as on a real filesystem. -/
mutual
def FSTree.wf : FSTree → Bool
  | .file => true
  | .dir es => es.wfE
def FSEntries.wfE : FSEntries → Bool
  | .nil => true
  | .cons n t rest => !rest.hasName n && t.wf && rest.wfE
end

theorem hasName_of_lookE : ∀ (es : FSEntries) (n : String) (rel : List String) (sub : FSTree),
    FSEntries.lookE es n rel = some sub → es.hasName n = true
  | .nil, n, rel, sub, h => by simp [FSEntries.lookE] at h
  | .cons n' t rest, n, rel, sub, h => by
      by_cases hn : n' = n
      · simp [FSEntries.hasName, hn]
      · simp only [FSEntries.lookE, if_neg hn] at h
        simp [FSEntries.hasName, hasName_of_lookE rest n rel sub h]

mutual
theorem rglob_mem_iff : ∀ (t : FSTree), t.wf = true → ∀ (base p : FPath) (b : Bool),
    ((p, b) ∈ rglob base t ↔
      ∃ rel sub, rel ≠ [] ∧ p = base ++ rel ∧ t.look rel = some sub ∧ sub.isDirT = b)
  | .file, _, base, p, b => by
      constructor
      · intro h
        simp [rglob] at h
      · rintro ⟨rel, sub, hrel, hp, hlook, hb⟩
        cases rel with
        | nil => exact absurd rfl hrel
        | cons r rs => simp [FSTree.look] at hlook
  | .dir es, hwf, base, p, b => by
      have hes := rglobEntries_mem_iff es (by simpa [FSTree.wf] using hwf) base p b
      show (p, b) ∈ rglobEntries base es ↔ _
      rw [hes]
      constructor
      · rintro ⟨n, rel, sub, hp, hlook, hb⟩
        exact ⟨n :: rel, sub, by simp, by simpa using hp,
               by simpa [FSTree.look] using hlook, hb⟩
      · rintro ⟨rel, sub, hrel, hp, hlook, hb⟩
        cases rel with
        | nil => exact absurd rfl hrel
        | cons n rs =>
            exact ⟨n, rs, sub, by simpa using hp,
                   by simpa [FSTree.look] using hlook, hb⟩
theorem rglobEntries_mem_iff : ∀ (es : FSEntries), es.wfE = true →
    ∀ (base p : FPath) (b : Bool),
    ((p, b) ∈ rglobEntries base es ↔
      ∃ n rel sub, p = base ++ n :: rel ∧ FSEntries.lookE es n rel = some sub ∧
        sub.isDirT = b)
  | .nil, _, base, p, b => by
      constructor
      · intro h
        simp [rglobEntries] at h
      · rintro ⟨n, rel, sub, hp, hlook, hb⟩
        simp [FSEntries.lookE] at hlook
  | .cons n0 t0 rest, hwf, base, p, b => by
      have hww : (!rest.hasName n0 && t0.wf && rest.wfE) = true := hwf
      rw [Bool.and_eq_true, Bool.and_eq_true, Bool.not_eq_true'] at hww
      have ht0 := rglob_mem_iff t0 hww.1.2 (base ++ [n0]) p b
      have hrest := rglobEntries_mem_iff rest hww.2 base p b
      show (p, b) ∈ (base ++ [n0], t0.isDirT) ::
          (rglob (base ++ [n0]) t0 ++ rglobEntries base rest) ↔ _
      constructor
      · intro hmem
        rcases List.mem_cons.mp hmem with hhead | htail0
        · rw [Prod.mk.injEq] at hhead
          exact ⟨n0, [], t0, hhead.1,
                 by simp [FSEntries.lookE, FSTree.look], hhead.2.symm⟩
        · rcases List.mem_append.mp htail0 with hmid | htail
          · obtain ⟨rel, sub, hrel, hp, hlook, hb⟩ := ht0.mp hmid
            refine ⟨n0, rel, sub, by simpa using hp, ?_, hb⟩
            simp [FSEntries.lookE, hlook]
          · obtain ⟨n, rel, sub, hp, hlook, hb⟩ := hrest.mp htail
            have hne : n0 ≠ n := by
              intro he
              have hh := hasName_of_lookE rest n rel sub hlook
              rw [← he] at hh
              rw [hh] at hww
              exact Bool.noConfusion hww.1.1
            refine ⟨n, rel, sub, hp, ?_, hb⟩
            simp [FSEntries.lookE, hne, hlook]
      · rintro ⟨n, rel, sub, hp, hlook, hb⟩
        apply List.mem_cons.mpr
        by_cases hn : n0 = n
        · subst hn
          simp only [FSEntries.lookE, if_pos rfl] at hlook
          cases rel with
          | nil =>
              left
              have hsub : t0 = sub := by simpa [FSTree.look] using hlook
              rw [Prod.mk.injEq]
              exact ⟨hp, by rw [← hb, ← hsub]⟩
          | cons r rs =>
              right
              apply List.mem_append.mpr
              left
              exact ht0.mpr ⟨r :: rs, sub, by simp, by simpa using hp,
                             by simpa [FSTree.look] using hlook, hb⟩
        · right
          apply List.mem_append.mpr
          right
          refine hrest.mpr ⟨n, rel, sub, hp, ?_, hb⟩
          simpa [FSEntries.lookE, hn] using hlook
end

/-- The spec's example tree: files `a.cpp`, `b.py` and `build/c.cpp`. -/
def exampleSrcTree : FSTree :=
  .dir (.cons "a.cpp" .file (.cons "b.py" .file
    (.cons "build" (.dir (.cons "c.cpp" .file .nil)) .nil)))

/-- C6: over every well-formed tree, `collect_sources` returns exactly
the files under `root` whose extension is in the configured extension set
and none of whose ancestor directories (up to the filesystem root) has a
name in the configured exclusion set; in particular, on the tree with
`a.cpp`, `b.py` and `build/c.cpp`, collecting with extensions `{.cpp}`
and exclusions `{build}` yields exactly `{a.cpp}`. -/
theorem collect_sources_exactly (root : FPath) (tree : FSTree) (exts ex_dirs : List String)
    (hwf : tree.wf = true) :
    (∀ p, p ∈ collect_sources root tree exts ex_dirs ↔
        ((∃ rel, rel ≠ [] ∧ p = root ++ rel ∧ tree.look rel = some FSTree.file)
         ∧ pySuffix (pathName p) ∈ exts
         ∧ ∀ q ∈ pathParents p, pathName q ∉ ex_dirs))
  ∧ collect_sources ["proj"] exampleSrcTree [".cpp"] ["build"] = [["proj", "a.cpp"]] := by
  refine ⟨fun p => ?_, rfl⟩
  simp only [collect_sources, List.mem_map, List.mem_filter]
  constructor
  · rintro ⟨⟨q, bb⟩, ⟨hmem, hcond⟩, rfl⟩
    simp only [Bool.and_eq_true, Bool.not_eq_true'] at hcond
    obtain ⟨⟨hbb, hext⟩, hpar⟩ := hcond
    subst hbb
    obtain ⟨rel, sub, hrel, hp, hlook, hdir⟩ :=
      (rglob_mem_iff tree hwf root q false).mp hmem
    cases sub with
    | dir es => simp [FSTree.isDirT] at hdir
    | file =>
        refine ⟨⟨rel, hrel, hp, hlook⟩, List.elem_iff.mp hext, ?_⟩
        intro r hr hmem2
        exact (List.any_eq_false.mp hpar r hr) (List.elem_iff.mpr hmem2)
  · rintro ⟨⟨rel, hrel, hp, hlook⟩, hext, hpar⟩
    refine ⟨(p, false), ⟨(rglob_mem_iff tree hwf root p false).mpr
        ⟨rel, FSTree.file, hrel, hp, hlook, rfl⟩, ?_⟩, rfl⟩
    simp only [Bool.and_eq_true, Bool.not_eq_true']
    refine ⟨⟨by simp, List.elem_iff.mpr hext⟩, ?_⟩
    apply List.any_eq_false.mpr
    intro r hr hcon
    exact hpar r hr (List.elem_iff.mp hcon)

/-- Witness for `collect_sources_exactly` at the spec's example tree:
`proj/a.cpp` is collected, and the collected set is exactly that file. -/
theorem collect_sources_exactly_witness :
    ["proj", "a.cpp"] ∈ collect_sources ["proj"] exampleSrcTree [".cpp"] ["build"]
  ∧ collect_sources ["proj"] exampleSrcTree [".cpp"] ["build"] = [["proj", "a.cpp"]] := by
  have h := collect_sources_exactly ["proj"] exampleSrcTree [".cpp"] ["build"] rfl
  exact ⟨(h.1 ["proj", "a.cpp"]).mpr
    ⟨⟨["a.cpp"], by simp, rfl, rfl⟩, by decide, by decide⟩, h.2⟩

/-! ## Theorems: `cmd_raid_meters` -/

theorem draw_new_spec (g : Nat → Nat) (n : Nat) (hn : 0 < n) (selected : List Nat) :
    ∀ (fuel i j i' : Nat),
      draw_new g n selected fuel i = some (j, i') → j ∉ selected ∧ j < n
  | 0, i, j, i', h => by simp [draw_new] at h
  | fuel + 1, i, j, i', h => by
      simp only [draw_new] at h
      by_cases hj : randbelow g i n ∈ selected
      · rw [if_pos hj] at h
        exact draw_new_spec g n hn selected fuel (i + 1) j i' h
      · rw [if_neg hj] at h
        injection h with h2
        injection h2 with hja hib
        exact ⟨hja ▸ hj, hja ▸ Nat.mod_lt _ hn⟩

theorem sample_go_spec (g : Nat → Nat) (n fuel : Nat) (hn : 0 < n) :
    ∀ (k i : Nat) (acc : List Nat), acc.Nodup → (∀ x ∈ acc, x < n) →
      ∀ idxs i', sample_go g n fuel k i acc = some (idxs, i') →
        idxs.Nodup ∧ (∀ x ∈ idxs, x < n) ∧ idxs.length = k + acc.length
  | 0, i, acc, hnd, hlt, idxs, i', h => by
      simp only [sample_go, Option.some.injEq, Prod.mk.injEq] at h
      obtain ⟨hidx, _⟩ := h
      subst hidx
      exact ⟨by simpa using hnd, by simpa using hlt, by simp⟩
  | k + 1, i, acc, hnd, hlt, idxs, i', h => by
      simp only [sample_go] at h
      rcases hd : draw_new g n acc fuel i with _ | ⟨j, i2⟩
      · rw [hd] at h
        exact absurd h (by simp)
      · rw [hd] at h
        obtain ⟨hj1, hj2⟩ := draw_new_spec g n hn acc fuel i j i2 hd
        have hrec := sample_go_spec g n fuel hn k i2 (j :: acc)
          (List.nodup_cons.mpr ⟨hj1, hnd⟩)
          (by
            intro x hx
            rcases List.mem_cons.mp hx with rfl | hx'
            · exact hj2
            · exact hlt x hx')
          idxs i' h
        refine ⟨hrec.1, hrec.2.1, ?_⟩
        rw [hrec.2.2]
        simp only [List.length_cons]
        omega

theorem dps_loop_names (g : Nat → Nat) (base : Int) :
    ∀ (picks : List (String × String)) (rank i : Nat),
      (dps_loop g base picks rank i).map (fun r => (r.1, r.2.1)) = picks
  | [], _, _ => rfl
  | (nm, sp) :: rest, rank, i => by
      simp [dps_loop, dps_loop_names g base rest (rank + 1) (i + 2)]

theorem picks_of_sample (idxs : List Nat) (h1 : idxs.Nodup)
    (h2 : ∀ x ∈ idxs, x < roster.length) :
    (idxs.map (fun j => roster.getD j ("", ""))).Nodup
    ∧ ∀ e ∈ idxs.map (fun j => roster.getD j ("", "")), e ∈ roster := by
  have hros : roster.Nodup := by decide
  constructor
  · apply List.Nodup.map_on ?_ h1
    intro x hx y hy hf
    rw [List.getD_eq_getElem roster _ (h2 x hx),
        List.getD_eq_getElem roster _ (h2 y hy)] at hf
    exact (List.Nodup.getElem_inj_iff hros).mp hf
  · intro e he
    obtain ⟨j, hj, rfl⟩ := List.mem_map.mp he
    rw [List.getD_eq_getElem roster _ (h2 j hj)]
    exact List.getElem_mem _

theorem sorted_rows_spec (rows DL : List (String × String × Int))
    (picks : List (String × String))
    (hperm : List.Perm rows DL)
    (hmap : DL.map (fun r => (r.1, r.2.1)) = picks)
    (hnd : picks.Nodup) (hmem : ∀ e ∈ picks, e ∈ roster) (hlen : picks.length = 5) :
    rows.length = 5 ∧ (rows.map (fun r => (r.1, r.2.1))).Nodup ∧
      ∀ r ∈ rows, (r.1, r.2.1) ∈ roster := by
  have hmp : List.Perm (rows.map (fun r => (r.1, r.2.1))) picks := by
    rw [← hmap]
    exact hperm.map _
  refine ⟨?_, ?_, ?_⟩
  · have h1 := hmp.length_eq
    rw [List.length_map] at h1
    rw [h1, hlen]
  · exact hmp.nodup_iff.mpr hnd
  · intro r hr
    exact hmem _ (hmp.mem_iff.mp (List.mem_map_of_mem _ hr))

/-- C3 (amended): for every seed-determined draw stream and width, the
output of `raid meters` is byte-identical across invocations EXCEPT for
the wall-clock timestamp embedded in the header line (every line after
the header is a function of the stream and the width alone), and whenever
the roster sampling completes, the leaderboard holds exactly 5 pairwise
distinct entries, all drawn from the fixed roster. -/
theorem raid_meters_deterministic_modulo_timestamp (g : Nat → Nat) (fuel : Nat)
    (widthArg : Int) (ts₁ ts₂ : String) :
    Option.map List.tail (cmd_raid_meters_lines g fuel widthArg ts₁) =
      Option.map List.tail (cmd_raid_meters_lines g fuel widthArg ts₂)
  ∧ (∀ rows i2, meters_table g fuel = some (rows, i2) →
       rows.length = 5
       ∧ (rows.map (fun r => (r.1, r.2.1))).Nodup
       ∧ ∀ r ∈ rows, (r.1, r.2.1) ∈ roster) := by
  constructor
  · rcases h : meters_table g fuel with _ | ⟨rows, i2⟩ <;>
      simp [cmd_raid_meters_lines, h]
  · intro rows i2 h
    simp only [meters_table] at h
    rcases hs : py_sample g fuel with _ | ⟨idxs, i1⟩
    · rw [hs] at h
      exact absurd h (by simp)
    · rw [hs] at h
      simp only [Option.some.injEq, Prod.mk.injEq] at h
      obtain ⟨hrows, _⟩ := h
      obtain ⟨hnd, hlt, hlen⟩ :=
        sample_go_spec g 24 fuel (by norm_num) 5 0 [] (by simp) (by simp) idxs i1 hs
      have hlt' : ∀ x ∈ idxs, x < roster.length := by
        intro x hx
        have : roster.length = 24 := rfl
        rw [this]
        exact hlt x hx
      obtain ⟨hpnd, hpmem⟩ := picks_of_sample idxs hnd hlt'
      refine sorted_rows_spec rows _ (idxs.map (fun j => roster.getD j ("", "")))
        ?_ (dps_loop_names g (randint g i1 180000 260000) _ 0 (i1 + 1)) hpnd hpmem ?_
      · rw [← hrows]
        exact List.perm_insertionSort _ _
      · rw [List.length_map, hlen]
        rfl

/-- C3 (counterexample): two invocations with the same seed-determined
draw stream and width but different wall-clock readings produce outputs
that are NOT byte-identical — the header line embeds the clock. -/
theorem raid_meters_output_embeds_clock :
    cmd_raid_meters_lines (fun i => i) 1 30 "11:11:11" ≠
      cmd_raid_meters_lines (fun i => i) 1 30 "22:22:22" := by
  decide

/-- Witness for `raid_meters_deterministic_modulo_timestamp`: on the
identity draw stream the table is defined and its 5 rows are distinct
roster entries. -/
theorem raid_meters_deterministic_modulo_timestamp_witness :
    meters_table (fun i => i) 1 =
      some ([("Atrocity", "Havoc DH", 172012), ("Warnergold", "Havoc DH", 160006),
             ("Paalas", "Havoc DH", 147996), ("Selfmade", "Veng DH", 135982),
             ("Threedose", "Fire Mage", 123964)], 16)
  ∧ ([("Atrocity", "Havoc DH", (172012 : Int)), ("Warnergold", "Havoc DH", 160006),
      ("Paalas", "Havoc DH", 147996), ("Selfmade", "Veng DH", 135982),
      ("Threedose", "Fire Mage", 123964)].map (fun r => (r.1, r.2.1))).Nodup :=
  ⟨rfl, ((raid_meters_deterministic_modulo_timestamp (fun i => i) 1 30 "a" "b").2
    _ 16 rfl).2.1⟩
